import Mathlib

/-!
Shallow embedding of the collaborative project lifecycle and moderation
engine of the project-sharing portal (Python/Flask backend, SQLite storage).

Database tables are embedded as Lean lists of row structures, kept in
insertion order; `AUTOINCREMENT` id columns are embedded as an explicit
`next_id` counter carried next to the rows.  Each Python database function
returns a dict with a `success` flag and a `message`; these are embedded as
a `DbResult` structure.  `CURRENT_TIMESTAMP` defaults and
`datetime.now().isoformat()` are embedded by threading an opaque `now`
string through the mutating operations.  Python truthiness tests on
optional integers and strings (`if reported_user_id:`, `if name or ...`)
are embedded by explicit `truthyNat` / `truthyStr` predicates, because in
Python both `None` and `0` (resp. the empty string) are falsy.
-/

namespace Portal

/-- Result dict of a mutating database call, mirroring the Python
dicts with keys success and message. -/
structure DbResult where
  success : Bool
  message : String
deriving Repr, DecidableEq

/-- Python truthiness of an optional integer: `None` and `0` are falsy. -/
def truthyNat : Option Nat → Bool
  | none => false
  | some n => n != 0

/-- Python truthiness of an optional string: `None` and the empty string
are falsy. -/
def truthyStr : Option String → Bool
  | none => false
  | some s => !s.isEmpty

/-- Python's `str.strip()`: drop whitespace from both ends, embedded
over the character list of the string. -/
def pyStrip (s : String) : String :=
  String.mk
    (((s.data.dropWhile Char.isWhitespace).reverse.dropWhile Char.isWhitespace).reverse)

/-- One row of the `users` table (the columns the embedded operations
read: id, username and the admin flag). -/
structure UserRow where
  id : Nat
  username : String
  admin : Bool
deriving Repr, DecidableEq

/-- One row of the `project_owners` table: the many-to-many mapping
between projects and owning users, in `added_at` insertion order. -/
structure OwnerRow where
  project_id : Nat
  user_id : Nat
deriving Repr, DecidableEq

/-- The `project_owners` table, in insertion (`added_at`) order. -/
abbrev OwnersDb := List OwnerRow

/-- One row of the `projects` table (including the columns added by
`migrate_db.py`: `last_edited_by_id` and `project_link`). -/
structure ProjectRow where
  id : Nat
  name : String
  description : String
  file_path : String
  file_size : Nat
  approved : Bool
  last_edited_by_id : Option Nat
  project_link : Option String
  updated_at : String
deriving Repr, DecidableEq

/-- One row of the `notifications` table. -/
structure NotifRow where
  id : Nat
  user_id : Nat
  project_id : Option Nat
  type : String
  message : String
  is_read : Bool
  created_at : String
deriving Repr, DecidableEq

/-- The `notifications` table together with its AUTOINCREMENT id
sequence. -/
structure Notifs where
  next_id : Nat
  rows : List NotifRow
deriving Repr, DecidableEq

/-- Count result dict with keys success and count. -/
structure CountResult where
  success : Bool
  count : Nat
deriving Repr, DecidableEq

namespace DbUsers

/-- `db_users.is_admin`: SELECT the admin column of the user row; a
missing user yields False. -/
def is_admin (users : List UserRow) (user_id : Nat) : Bool :=
  match users.find? (fun u => u.id == user_id) with
  | some u => u.admin
  | none => false

/-- `db_users.get_admin_user_ids`: SELECT id FROM users WHERE admin = 1. -/
def get_admin_user_ids (users : List UserRow) : List Nat :=
  (users.filter (fun u => u.admin)).map (fun u => u.id)

/-- `db_users.get_user_by_id`, restricted to the columns the embedded
callers read. -/
def get_user_by_id (users : List UserRow) (user_id : Nat) : Option UserRow :=
  users.find? (fun u => u.id == user_id)

end DbUsers

namespace DbProjectOwners

/-- SELECT COUNT(*) FROM project_owners WHERE project_id = ?. -/
def ownerCount (db : OwnersDb) (p : Nat) : Nat :=
  (db.filter (fun r => r.project_id == p)).length

/-- `db_project_owners.is_project_owner`: SELECT id FROM project_owners
WHERE project_id = ? AND user_id = ?, tested for existence. -/
def is_project_owner (db : OwnersDb) (p u : Nat) : Bool :=
  db.any (fun r => r.project_id == p && r.user_id == u)

/-- `db_project_owners.add_owner_to_project`: refuse when the pair
already exists, otherwise INSERT the ownership row. -/
def add_owner_to_project (db : OwnersDb) (p u : Nat) : DbResult × OwnersDb :=
  if is_project_owner db p u then
    (⟨false, "User is already an owner of this project"⟩, db)
  else
    (⟨true, "Owner added successfully"⟩, db ++ [⟨p, u⟩])

/-- `db_project_owners.remove_owner_from_project`: count the owners of
the project; refuse when the count is at most 1; otherwise DELETE the
rows matching (project, user) and report a not-an-owner failure when
nothing was deleted (rowcount = 0). -/
def remove_owner_from_project (db : OwnersDb) (p u : Nat) : DbResult × OwnersDb :=
  let owner_count := ownerCount db p
  if owner_count ≤ 1 then
    (⟨false, "Cannot remove the last owner from a project"⟩, db)
  else
    let db2 := db.filter (fun r => !(r.project_id == p && r.user_id == u))
    if db.length - db2.length == 0 then
      (⟨false, "User is not an owner of this project"⟩, db2)
    else
      (⟨true, "Owner removed successfully"⟩, db2)

/-- Modelled from the spec: `get_project_creator` is imported by
`database/__init__.py` from `db_project_owners` and called by the API
layer, but its definition is not among the provided sources.  Per the
spec the creator is the distinguished first owner recorded at
project-creation time, and `create_project` inserts the creator as the
first `project_owners` row of the project, so the creator is the user of
the earliest ownership row of the project (None when the project has no
ownership row). -/
def get_project_creator (db : OwnersDb) (p : Nat) : Option Nat :=
  (db.find? (fun r => r.project_id == p)).map (fun r => r.user_id)

/-- A sequential ownership-registry call: either adding or removing an
owner of some project. -/
inductive OwnerOp where
  | add (p u : Nat)
  | remove (p u : Nat)
deriving Repr, DecidableEq

/-- State reached after one ownership-registry call. -/
def applyOwnerOp (db : OwnersDb) : OwnerOp → OwnersDb
  | .add p u => (add_owner_to_project db p u).2
  | .remove p u => (remove_owner_from_project db p u).2

/-- State reached after a sequence of ownership-registry calls. -/
def applyOwnerOps (db : OwnersDb) : List OwnerOp → OwnersDb
  | [] => db
  | op :: ops => applyOwnerOps (applyOwnerOp db op) ops

end DbProjectOwners

namespace DbNotifications

/-- `db_notifications.create_notification`: INSERT one notification row
(unread, `created_at` defaulting to the current timestamp) and return its
id. -/
def create_notification (notifs : Notifs) (user_id : Nat) (project_id : Option Nat)
    (type message : String) (now : String) : DbResult × Notifs :=
  (⟨true, "Notification created successfully"⟩,
   ⟨notifs.next_id + 1,
    notifs.rows ++ [⟨notifs.next_id, user_id, project_id, type, message, false, now⟩]⟩)

/-- `db_notifications.mark_all_notifications_as_read`: UPDATE
notifications SET is_read = 1 WHERE user_id = ? AND is_read = 0. -/
def mark_all_notifications_as_read (notifs : Notifs) (user_id : Nat) :
    DbResult × Notifs :=
  (⟨true, "All notifications marked as read"⟩,
   ⟨notifs.next_id,
    notifs.rows.map (fun n =>
      if n.user_id == user_id && !n.is_read then { n with is_read := true } else n)⟩)

/-- `db_notifications.get_unread_count`: SELECT COUNT(*) FROM
notifications WHERE user_id = ? AND is_read = 0. -/
def get_unread_count (notifs : Notifs) (user_id : Nat) : CountResult :=
  ⟨true, (notifs.rows.filter (fun n => n.user_id == user_id && !n.is_read)).length⟩

/-- Fan-out result dict with keys success, message and count. -/
structure FanoutResult where
  success : Bool
  message : String
  count : Nat
deriving Repr, DecidableEq

/-- `db_notifications.create_notification_for_project_owners`: SELECT the
owner set of the project (excluding `exclude_user_id` when that argument
is truthy) and INSERT one notification row per owner. -/
def create_notification_for_project_owners (owners : OwnersDb) (notifs : Notifs)
    (project_id : Nat) (type message : String) (exclude_user_id : Option Nat)
    (now : String) : FanoutResult × Notifs :=
  let owner_ids :=
    if truthyNat exclude_user_id then
      (owners.filter (fun r =>
        r.project_id == project_id && r.user_id != exclude_user_id.getD 0)).map
          (fun r => r.user_id)
    else
      (owners.filter (fun r => r.project_id == project_id)).map (fun r => r.user_id)
  let notifs2 := owner_ids.foldl
    (fun acc oid => (create_notification acc oid (some project_id) type message now).2)
    notifs
  (⟨true, toString owner_ids.length ++ " notification(s) created", owner_ids.length⟩,
   notifs2)

end DbNotifications

namespace DbProjects

/-- `db_projects.get_project_by_id`: SELECT * FROM projects WHERE id = ?
(the source additionally attaches the owner list, tags and the last
editor username to the returned dict; the embedding returns the project
row itself). -/
def get_project_by_id (projects : List ProjectRow) (project_id : Nat) :
    Option ProjectRow :=
  projects.find? (fun pr => pr.id == project_id)

/-- The row rewrite the UPDATE of `update_project` applies: the matching
row receives the provided fields and the fresh `updated_at`, other rows
are untouched. -/
def updateRow (project_id : Nat) (name description file_path : Option String)
    (file_size : Option Nat) (project_link : Option String)
    (last_edited_by_id : Option Nat) (now : String) (pr : ProjectRow) : ProjectRow :=
  if pr.id == project_id then
    { pr with
      name := name.getD pr.name,
      description := description.getD pr.description,
      file_path := file_path.getD pr.file_path,
      file_size := file_size.getD pr.file_size,
      project_link := if project_link.isSome then project_link else pr.project_link,
      last_edited_by_id :=
        if last_edited_by_id.isSome then last_edited_by_id else pr.last_edited_by_id,
      updated_at := now }
  else pr

/-- `db_projects.update_project`: partial UPDATE of the project row,
touching exactly the provided (non-None) fields plus the `updated_at`
timestamp; fails with "No fields to update" when no field is provided and
with "Project not found" when no row matched.  The `project_link`
parameter is not in the provided copy of `db_projects.py` but the API
layer passes it and `migrate_db.py` adds the column; it is embedded like
the other optional fields, per the spec's partial-update description. -/
def update_project (projects : List ProjectRow) (project_id : Nat)
    (name description file_path : Option String) (file_size : Option Nat)
    (project_link : Option String) (last_edited_by_id : Option Nat)
    (now : String) : DbResult × List ProjectRow :=
  if !(name.isSome || description.isSome || file_path.isSome || file_size.isSome ||
       project_link.isSome || last_edited_by_id.isSome) then
    (⟨false, "No fields to update"⟩, projects)
  else
    let rows := projects.map
      (updateRow project_id name description file_path file_size project_link
        last_edited_by_id now)
    if projects.any (fun pr => pr.id == project_id) then
      (⟨true, "Project updated successfully"⟩, rows)
    else
      (⟨false, "Project not found"⟩, rows)

/-- `db_projects.unapprove_project`: UPDATE projects SET approved = 0
WHERE id = ?. -/
def unapprove_project (projects : List ProjectRow) (project_id : Nat) :
    DbResult × List ProjectRow :=
  let rows := projects.map (fun pr =>
    if pr.id == project_id then { pr with approved := false } else pr)
  if projects.any (fun pr => pr.id == project_id) then
    (⟨true, "Project unapproved successfully"⟩, rows)
  else
    (⟨false, "Project not found"⟩, rows)

end DbProjects

namespace DbRatings

/-- One row of the `project_ratings` table.  The rating value is embedded
as an integer because `rate_project` takes an arbitrary Python int and
range-checks it itself. -/
structure RatingRow where
  project_id : Nat
  user_id : Nat
  rating : Int
  created_at : String
  updated_at : String
deriving Repr, DecidableEq

/-- The UNIQUE(project_id, user_id) constraint of the `project_ratings`
table: no two rows share their key pair. -/
def NodupKeys (ratings : List RatingRow) : Prop :=
  ratings.Pairwise (fun a b => ¬(a.project_id = b.project_id ∧ a.user_id = b.user_id))

/-- `db_ratings.rate_project`: reject a value outside 1..5; otherwise
upsert — UPDATE the existing (project, user) row's rating and
`updated_at`, or INSERT a fresh row. -/
def rate_project (ratings : List RatingRow) (project_id user_id : Nat)
    (rating : Int) (now : String) : DbResult × List RatingRow :=
  if rating < 1 || rating > 5 then
    (⟨false, "Rating must be between 1 and 5"⟩, ratings)
  else if ratings.any (fun r => r.project_id == project_id && r.user_id == user_id) then
    (⟨true, "Rating updated successfully"⟩,
     ratings.map (fun r =>
       if r.project_id == project_id && r.user_id == user_id then
         { r with rating := rating, updated_at := now }
       else r))
  else
    (⟨true, "Rating added successfully"⟩,
     ratings ++ [⟨project_id, user_id, rating, now, now⟩])

/-- `db_ratings.get_user_rating`: SELECT rating FROM project_ratings
WHERE project_id = ? AND user_id = ?, or None when absent. -/
def get_user_rating (ratings : List RatingRow) (project_id user_id : Nat) :
    Option Int :=
  (ratings.find? (fun r => r.project_id == project_id && r.user_id == user_id)).map
    (fun r => r.rating)

/-- Python's round-half-to-even on an exact rational, to the nearest
integer, as CPython's `round` behaves on ties. -/
def roundHalfEven (x : ℚ) : ℤ :=
  let n := ⌊x⌋
  if x - n < 1/2 then n
  else if 1/2 < x - n then n + 1
  else if n % 2 == 0 then n else n + 1

/-- Python's `round(x, 1)`: round to one decimal place, ties to even. -/
def pythonRound1 (x : ℚ) : ℚ := (roundHalfEven (10 * x) : ℚ) / 10

/-- Aggregate-rating dict with keys success, average and count. -/
structure RatingAggregate where
  success : Bool
  average : ℚ
  count : Nat
deriving Repr, DecidableEq

/-- `db_ratings.get_project_rating`: SELECT AVG(rating), COUNT(*) for the
project; a NULL average (no rows) is replaced by 0, and the reported
average is `round(average, 1)` unless the average is falsy (0), in which
case 0 is reported. -/
def get_project_rating (ratings : List RatingRow) (project_id : Nat) :
    RatingAggregate :=
  let rows := ratings.filter (fun r => r.project_id == project_id)
  let count := rows.length
  let average : ℚ :=
    if count == 0 then 0 else ((rows.map (fun r => (r.rating : ℚ))).sum) / count
  ⟨true, if average == 0 then 0 else pythonRound1 average, count⟩

end DbRatings

namespace DbReports

/-- One row of the `reports` table. -/
structure ReportRow where
  id : Nat
  reporter_id : Nat
  reported_user_id : Option Nat
  reported_project_id : Option Nat
  reason : String
  status : String
  admin_notes : Option String
  resolved_by : Option Nat
  resolved_at : Option String
  created_at : String
deriving Repr, DecidableEq

/-- The `reports` table together with its AUTOINCREMENT id sequence. -/
structure Reports where
  next_id : Nat
  rows : List ReportRow
deriving Repr, DecidableEq

/-- Result dict of `create_report`, carrying the new report id on
success. -/
structure CreateReportResult where
  success : Bool
  message : String
  report_id : Option Nat
deriving Repr, DecidableEq

/-- `db_reports.create_report`: require exactly one (truthy) target,
then INSERT the row with status forced to pending. -/
def create_report (reports : Reports) (reporter_id : Nat) (reason : String)
    (reported_user_id reported_project_id : Option Nat) (now : String) :
    CreateReportResult × Reports :=
  if !truthyNat reported_user_id && !truthyNat reported_project_id then
    (⟨false, "Must specify either a user or project to report", none⟩, reports)
  else if truthyNat reported_user_id && truthyNat reported_project_id then
    (⟨false, "Can only report a user or project, not both", none⟩, reports)
  else
    (⟨true, "Report submitted successfully", some reports.next_id⟩,
     ⟨reports.next_id + 1,
      reports.rows ++ [⟨reports.next_id, reporter_id, reported_user_id,
        reported_project_id, reason, "pending", none, none, none, now⟩]⟩)

/-- `db_reports.update_report_status`: for status resolved or dismissed
UPDATE status, admin_notes, resolved_by and resolved_at; for any other
status UPDATE only status and admin_notes; report "Report not found" when
no row matched. -/
def update_report_status (reports : Reports) (report_id : Nat) (status : String)
    (admin_id : Nat) (admin_notes : Option String) (now : String) :
    DbResult × Reports :=
  let rows :=
    if status == "resolved" || status == "dismissed" then
      reports.rows.map (fun r =>
        if r.id == report_id then
          { r with status := status, admin_notes := admin_notes,
                   resolved_by := some admin_id, resolved_at := some now }
        else r)
    else
      reports.rows.map (fun r =>
        if r.id == report_id then
          { r with status := status, admin_notes := admin_notes }
        else r)
  if reports.rows.any (fun r => r.id == report_id) then
    (⟨true, "Report updated successfully"⟩, ⟨reports.next_id, rows⟩)
  else
    (⟨false, "Report not found"⟩, ⟨reports.next_id, rows⟩)

end DbReports

namespace ApiProjects

/-- Allowed project-archive extensions of `api_projects.py`. -/
def ALLOWED_EXTENSIONS : List String := ["zip", "7z", "rar", "tar", "gz"]

/-- ASCII lowercasing of one character, as Python's `str.lower` acts on
the extension letters. -/
def lowerChar (c : Char) : Char :=
  if 65 ≤ c.toNat ∧ c.toNat ≤ 90 then Char.ofNat (c.toNat + 32) else c

/-- `api_projects.allowed_file`: the filename contains a dot and the part
after the final dot (`rsplit` on the dot), lowercased, is a permitted
archive extension.  Embedded over the character list of the string. -/
def allowed_file (filename : String) : Bool :=
  filename.data.contains '.' &&
    ALLOWED_EXTENSIONS.contains
      (String.mk (((filename.data.reverse.takeWhile (fun c => c != '.')).reverse).map
        lowerChar))

/-- A file part of a multipart request (only its filename matters to the
embedded control flow; the stored bytes are abstracted by the
`new_file_path` / `new_file_size` arguments of the endpoint). -/
structure FilePart where
  filename : String
deriving Repr, DecidableEq

/-- The multipart form of the update endpoint; `none` means the field was
absent from the request. -/
structure UpdateRequest where
  name : Option String
  description : Option String
  tags : Option String
  project_link : Option String
  file : Option FilePart
deriving Repr, DecidableEq

/-- The condition under which the update endpoint replaces the stored
file: a file part is present with a nonempty filename of an allowed
archive extension (mirrors the guard of the file branch of
`api_projects.update_project`). -/
def fileReplaced (req : UpdateRequest) : Bool :=
  match req.file with
  | some f => f.filename != "" && allowed_file f.filename
  | none => false

/-- `api_projects.update_project` (PUT /api/projects/id): look the
project up; authorize any owner or admin; apply the partial update of
basic fields, tags and — when a nonempty, allowed file is uploaded — the
file replacement followed by `unapprove_project`; finally fan out
project_edited notifications (to the owners when an admin edited someone
else's project, to every admin when a non-admin owner edited it).
`new_file_path` and `new_file_size` abstract the freshly stored blob. -/
def update_project (users : List UserRow) (owners : OwnersDb)
    (projects : List ProjectRow) (notifs : Notifs)
    (project_id current_user_id : Nat) (current_username : String)
    (req : UpdateRequest) (new_file_path : String) (new_file_size : Nat)
    (now : String) : (Nat × String) × List ProjectRow × Notifs :=
  match DbProjects.get_project_by_id projects project_id with
  | none => ((404, "Project not found"), projects, notifs)
  | some project =>
    let is_admin := DbUsers.is_admin users current_user_id
    let is_owner := DbProjectOwners.is_project_owner owners project_id current_user_id
    if !is_owner && !is_admin then
      ((403, "You do not have permission to update this project"), projects, notifs)
    else
      let admin_editing_others := is_admin && !is_owner
      let projects1 :=
        if truthyStr req.name || truthyStr req.description || req.project_link.isSome then
          (DbProjects.update_project projects project_id
            (if truthyStr req.name then req.name else none)
            req.description none none req.project_link (some current_user_id) now).2
        else projects
      let projects2 :=
        if req.tags.isSome then
          (DbProjects.update_project projects1 project_id
            none none none none none (some current_user_id) now).2
        else projects1
      let projects3 :=
        match req.file with
        | some f =>
          if f.filename != "" && allowed_file f.filename then
            (DbProjects.unapprove_project
              ((DbProjects.update_project projects2 project_id
                none none (some new_file_path) (some new_file_size) none
                (some current_user_id) now).2)
              project_id).2
          else projects2
        | none => projects2
      let notifs1 :=
        if admin_editing_others then
          (DbNotifications.create_notification_for_project_owners owners notifs
            project_id "project_edited"
            ("Your project \"" ++ project.name ++ "\" has been edited by an administrator.")
            (some current_user_id) now).2
        else if is_owner && !is_admin then
          (DbUsers.get_admin_user_ids users).foldl
            (fun acc admin_id =>
              (DbNotifications.create_notification acc admin_id (some project_id)
                "project_edited"
                ("Project \"" ++ project.name ++ "\" has been edited by " ++
                  current_username ++ ".") now).2)
            notifs
        else notifs
      ((200, "Project updated successfully"), projects3, notifs1)

/-- Response of the read endpoint: an error status with its message, or
the project payload. -/
inductive GetProjectResult where
  | failure (status : Nat) (message : String)
  | success (status : Nat) (project : ProjectRow)
deriving Repr, DecidableEq

/-- `api_projects.get_project` (GET /api/projects/id): a missing project
is 404 "Project not found"; an unapproved project is also 404
"Project not found" unless the (optional) authenticated caller is an
admin or an owner; otherwise the project is returned.  `auth` is the user
id decoded from the Authorization header, `none` when the header is
missing or its token invalid. -/
def get_project (users : List UserRow) (owners : OwnersDb)
    (projects : List ProjectRow) (project_id : Nat) (auth : Option Nat) :
    GetProjectResult :=
  match DbProjects.get_project_by_id projects project_id with
  | none => .failure 404 "Project not found"
  | some project =>
    let is_admin := match auth with
      | some u => DbUsers.is_admin users u
      | none => false
    let is_owner := match auth with
      | some u => DbProjectOwners.is_project_owner owners project_id u
      | none => false
    if !project.approved && !(is_admin || is_owner) then
      .failure 404 "Project not found"
    else
      .success 200 project

/-- `os.path.splitext(path)[1]`: the extension after the final dot,
including the dot; empty when the path has no dot. -/
def splitext_ext (path : String) : String :=
  if path.contains '.' then "." ++ (path.splitOn ".").getLastD "" else ""

/-- Response of the download endpoint: an error status with its message,
or the file sent under its download name. -/
inductive DownloadResult where
  | failure (status : Nat) (message : String)
  | sendFile (download_name : String)
deriving Repr, DecidableEq

/-- `api_projects.download_project` (GET /api/projects/id/download): a
missing project is 404 "Project not found"; an unapproved project is 403
"Project not available" unless the optional authenticated caller is an
admin or owner; a missing file on disk is 404 "File not found"; otherwise
the file is sent.  `fs` is the set of paths existing on disk. -/
def download_project (users : List UserRow) (owners : OwnersDb)
    (projects : List ProjectRow) (fs : List String) (project_id : Nat)
    (auth : Option Nat) : DownloadResult :=
  match DbProjects.get_project_by_id projects project_id with
  | none => .failure 404 "Project not found"
  | some project =>
    let authorized :=
      if !project.approved then
        let is_admin := match auth with
          | some u => DbUsers.is_admin users u
          | none => false
        let is_owner := match auth with
          | some u => DbProjectOwners.is_project_owner owners project_id u
          | none => false
        is_admin || is_owner
      else true
    if !authorized then .failure 403 "Project not available"
    else if !(fs.contains project.file_path) then .failure 404 "File not found"
    else .sendFile (project.name ++ splitext_ext project.file_path)

/-- `api_projects.remove_project_owner` (DELETE
/api/projects/id/owners/user_id): authorize any owner or admin; block a
non-admin actor other than the creator from removing the creator;
otherwise delegate to `remove_owner_from_project` and translate its
result dict to 200/400. -/
def remove_project_owner (users : List UserRow) (owners : OwnersDb)
    (project_id user_id current_user_id : Nat) :
    (Nat × String) × OwnersDb :=
  if !(DbProjectOwners.is_project_owner owners project_id current_user_id) &&
     !(DbUsers.is_admin users current_user_id) then
    ((403, "You do not have permission to remove owners"), owners)
  else
    let creator_id := DbProjectOwners.get_project_creator owners project_id
    let creatorBlocked :=
      match creator_id with
      | some c => c == user_id && current_user_id != user_id &&
          !(DbUsers.is_admin users current_user_id)
      | none => false
    if creatorBlocked then
      ((403, "Cannot remove the project creator"), owners)
    else
      let result := DbProjectOwners.remove_owner_from_project owners project_id user_id
      ((if result.1.success then 200 else 400, result.1.message), result.2)

end ApiProjects

namespace ApiReports

/-- A single-quote character, used by the notification message of a
project report. -/
def singleQuote : String := String.singleton (Char.ofNat 39)

/-- `api_reports.submit_report` (POST /api/reports): validate the reason
(present after a missing-key check, nonempty after stripping) and the
target (at least one truthy id, no self-report), delegate to
`create_report`, and on success create one report notification per admin.
`reason` is `none` when the JSON body has no reason key. -/
def submit_report (users : List UserRow) (projects : List ProjectRow)
    (reports : DbReports.Reports) (notifs : Notifs)
    (current_user_id : Nat) (current_username : String)
    (reason : Option String) (reported_user_id reported_project_id : Option Nat)
    (now : String) : (Nat × String) × DbReports.Reports × Notifs :=
  match reason with
  | none => ((400, "Reason is required"), reports, notifs)
  | some reason_raw =>
    let reason := pyStrip reason_raw
    if reason == "" then
      ((400, "Reason cannot be empty"), reports, notifs)
    else if !truthyNat reported_user_id && !truthyNat reported_project_id then
      ((400, "Must specify either a user or project to report"), reports, notifs)
    else if truthyNat reported_user_id && reported_user_id == some current_user_id then
      ((400, "You cannot report yourself"), reports, notifs)
    else
      let res := DbReports.create_report reports current_user_id reason
        reported_user_id reported_project_id now
      let notifs1 :=
        if res.1.success then
          let message :=
            if truthyNat reported_user_id then
              let reported_name :=
                match DbUsers.get_user_by_id users (reported_user_id.getD 0) with
                | some u => u.username
                | none => "Unknown"
              current_username ++ " reported user " ++ reported_name
            else
              let reported_name :=
                match DbProjects.get_project_by_id projects (reported_project_id.getD 0) with
                | some pr => pr.name
                | none => "Unknown"
              current_username ++ " reported project " ++
                singleQuote ++ reported_name ++ singleQuote
          (DbUsers.get_admin_user_ids users).foldl
            (fun acc admin_id =>
              (DbNotifications.create_notification acc admin_id reported_project_id
                "report" message now).2)
            notifs
        else notifs
      ((if res.1.success then 201 else 400, res.1.message), res.2, notifs1)

end ApiReports

end Portal

namespace Portal.DbProjectOwners

lemma ownerCount_nil (q : Nat) : ownerCount ([] : OwnersDb) q = 0 := rfl

lemma ownerCount_cons (r : OwnerRow) (t : OwnersDb) (q : Nat) :
    ownerCount (r :: t) q = (if r.project_id == q then 1 else 0) + ownerCount t q := by
  simp only [ownerCount, List.filter_cons]
  cases h : (r.project_id == q) <;> simp [h, Nat.add_comm]

lemma ownerCount_append (l₁ l₂ : OwnersDb) (q : Nat) :
    ownerCount (l₁ ++ l₂) q = ownerCount l₁ q + ownerCount l₂ q := by
  simp [ownerCount, List.filter_append]

/-- A row matches the DELETE predicate of `remove_owner_from_project`
exactly when it equals the row being removed. -/
lemma match_iff_eq (r : OwnerRow) (p u : Nat) :
    (r.project_id == p && r.user_id == u) = true ↔ r = ⟨p, u⟩ := by
  cases r
  simp_all [OwnerRow.mk.injEq]

/-- The DELETE of `remove_owner_from_project` lowers the owner count of
any project by at most one, provided the table satisfies its
UNIQUE(project_id, user_id) constraint. -/
lemma ownerCount_remove_filter_ge (db : OwnersDb) (p u q : Nat) (hnd : db.Nodup) :
    ownerCount db q ≤
      ownerCount (db.filter (fun r => !(r.project_id == p && r.user_id == u))) q + 1 := by
  induction db with
  | nil => simp [ownerCount_nil]
  | cons r t ih =>
    have hrt : r ∉ t := (List.nodup_cons.mp hnd).1
    have hnt : t.Nodup := (List.nodup_cons.mp hnd).2
    cases hdrop : (r.project_id == p && r.user_id == u) with
    | false =>
      rw [List.filter_cons_of_pos (by simp [hdrop])]
      rw [ownerCount_cons, ownerCount_cons]
      have := ih hnt
      omega
    | true =>
      have hr : r = ⟨p, u⟩ := (match_iff_eq r p u).mp hdrop
      rw [List.filter_cons_of_neg (by simp [hdrop])]
      have hfix : t.filter (fun r => !(r.project_id == p && r.user_id == u)) = t := by
        apply List.filter_eq_self.mpr
        intro a ha
        have hne : a ≠ (⟨p, u⟩ : OwnerRow) := by
          intro heq; exact hrt (hr ▸ heq ▸ ha)
        simp only [Bool.not_eq_true']
        exact (Bool.not_eq_true _).mp (fun hm => hne ((match_iff_eq a p u).mp hm))
      rw [hfix, ownerCount_cons]
      cases h : (r.project_id == q) <;> simp [h]
      omega

/-- The DELETE of `remove_owner_from_project` does not touch the owner
count of a different project. -/
lemma ownerCount_remove_filter_other (db : OwnersDb) (p u q : Nat) (hpq : q ≠ p) :
    ownerCount (db.filter (fun r => !(r.project_id == p && r.user_id == u))) q
      = ownerCount db q := by
  induction db with
  | nil => rfl
  | cons r t ih =>
    cases hdrop : (r.project_id == p && r.user_id == u) with
    | false =>
      rw [List.filter_cons_of_pos (by simp [hdrop])]
      rw [ownerCount_cons, ownerCount_cons, ih]
    | true =>
      have hr : r = ⟨p, u⟩ := (match_iff_eq r p u).mp hdrop
      rw [List.filter_cons_of_neg (by simp [hdrop])]
      rw [ownerCount_cons, ih]
      have : (r.project_id == q) = false := by
        subst hr; simp; omega
      simp [this]

/-- Adding an owner never lowers any owner count. -/
lemma ownerCount_add_ge (db : OwnersDb) (p u q : Nat) :
    ownerCount db q ≤ ownerCount (add_owner_to_project db p u).2 q := by
  unfold add_owner_to_project
  cases h : is_project_owner db p u <;> simp [h, ownerCount_append]

/-- `add_owner_to_project` preserves the UNIQUE(project_id, user_id)
constraint. -/
lemma add_preserves_nodup (db : OwnersDb) (p u : Nat) (hnd : db.Nodup) :
    (add_owner_to_project db p u).2.Nodup := by
  unfold add_owner_to_project
  cases h : is_project_owner db p u with
  | true => simp [h, hnd]
  | false =>
    simp only [h, Bool.false_eq_true, if_false]
    rw [List.nodup_append]
    refine ⟨hnd, List.nodup_singleton _, ?_⟩
    intro a ha hb
    have : a = (⟨p, u⟩ : OwnerRow) := by simpa using hb
    subst this
    have : is_project_owner db p u = true :=
      List.any_eq_true.mpr ⟨_, ha, by simp⟩
    rw [h] at this
    exact Bool.false_ne_true this

/-- `remove_owner_from_project` preserves the UNIQUE(project_id, user_id)
constraint. -/
lemma remove_preserves_nodup (db : OwnersDb) (p u : Nat) (hnd : db.Nodup) :
    (remove_owner_from_project db p u).2.Nodup := by
  have hf := hnd.filter (p := fun r => !(r.project_id == p && r.user_id == u))
  simp only [remove_owner_from_project]
  split
  · exact hnd
  · split
    · exact hf
    · exact hf

/-- One ownership-registry call keeps a positive owner count positive
and preserves the uniqueness constraint. -/
lemma applyOwnerOp_invariant (db : OwnersDb) (p₀ : Nat) (op : OwnerOp)
    (hnd : db.Nodup) (h1 : 1 ≤ ownerCount db p₀) :
    1 ≤ ownerCount (applyOwnerOp db op) p₀ ∧ (applyOwnerOp db op).Nodup := by
  cases op with
  | add p u =>
    exact ⟨le_trans h1 (ownerCount_add_ge db p u p₀), add_preserves_nodup db p u hnd⟩
  | remove p u =>
    refine ⟨?_, remove_preserves_nodup db p u hnd⟩
    show 1 ≤ ownerCount (remove_owner_from_project db p u).2 p₀
    simp only [remove_owner_from_project]
    split
    · exact h1
    · next hle =>
      have hcore : 1 ≤ ownerCount
          (db.filter (fun r => !(r.project_id == p && r.user_id == u))) p₀ := by
        by_cases hpq : p₀ = p
        · rw [hpq]
          have := ownerCount_remove_filter_ge db p u p hnd
          omega
        · rw [ownerCount_remove_filter_other db p u p₀ hpq]
          exact h1
      split
      · exact hcore
      · exact hcore

/-- A sequence of ownership-registry calls keeps a positive owner count
positive. -/
lemma applyOwnerOps_invariant (ops : List OwnerOp) (db : OwnersDb) (p₀ : Nat)
    (hnd : db.Nodup) (h1 : 1 ≤ ownerCount db p₀) :
    1 ≤ ownerCount (applyOwnerOps db ops) p₀ := by
  induction ops generalizing db with
  | nil => simpa [applyOwnerOps] using h1
  | cons op ops ih =>
    have := applyOwnerOp_invariant db p₀ op hnd h1
    exact ih (applyOwnerOp db op) this.2 this.1

/-- C1: starting from a state whose `project_owners` table satisfies the
UNIQUE(project_id, user_id) constraint and in which project `p` has at
least one owner, no sequence of `add_owner_to_project` /
`remove_owner_from_project` calls drives the owner count of `p` below 1;
`remove_owner_from_project` returns the failure message
"Cannot remove the last owner from a project" and leaves the table
unchanged whenever the current owner count of `p` is at most 1; and it
deletes an ownership row (changes the table) only when the count is at
least 2. -/
theorem C1_last_owner_protection
    (db : OwnersDb) (p u : Nat) (ops : List OwnerOp)
    (hnd : db.Nodup) (h1 : 1 ≤ ownerCount db p) :
    (1 ≤ ownerCount (applyOwnerOps db ops) p) ∧
    (ownerCount db p ≤ 1 →
      remove_owner_from_project db p u
        = (⟨false, "Cannot remove the last owner from a project"⟩, db)) ∧
    ((remove_owner_from_project db p u).2 ≠ db → 2 ≤ ownerCount db p) := by
  refine ⟨applyOwnerOps_invariant ops db p hnd h1, ?_, ?_⟩
  · intro hle
    unfold remove_owner_from_project
    simp [hle]
  · intro hne
    by_contra hlt
    have hle : ownerCount db p ≤ 1 := by omega
    apply hne
    unfold remove_owner_from_project
    simp [hle]

/-- Witness for C1 at a concrete state: one project (id 1) with a single
owner 10; the invariant survives adding owner 20, removing 10 and then
attempting to remove 20, and the last-owner removal is refused. -/
theorem C1_last_owner_protection_witness :
    ([⟨1, 10⟩] : OwnersDb).Nodup ∧ 1 ≤ ownerCount [⟨1, 10⟩] 1 ∧
    1 ≤ ownerCount (applyOwnerOps [⟨1, 10⟩] [.add 1 20, .remove 1 10, .remove 1 20]) 1 ∧
    remove_owner_from_project [⟨1, 10⟩] 1 10
      = (⟨false, "Cannot remove the last owner from a project"⟩, [⟨1, 10⟩]) := by
  refine ⟨by decide, by decide, ?_, ?_⟩
  · exact (C1_last_owner_protection [⟨1, 10⟩] 1 10 [.add 1 20, .remove 1 10, .remove 1 20]
      (by decide) (by decide)).1
  · exact (C1_last_owner_protection [⟨1, 10⟩] 1 10 [] (by decide) (by decide)).2.1 (by decide)

end Portal.DbProjectOwners

namespace Portal.DbNotifications

/-- After `mark_all_notifications_as_read` no row of the user is left
unread. -/
lemma unread_after_mark_all (notifs : Notifs) (u : Nat) :
    get_unread_count (mark_all_notifications_as_read notifs u).2 u = ⟨true, 0⟩ := by
  simp only [get_unread_count, mark_all_notifications_as_read, CountResult.mk.injEq,
    true_and]
  rw [List.length_eq_zero, List.filter_eq_nil_iff]
  intro n hn
  rw [List.mem_map] at hn
  obtain ⟨m, _, hm⟩ := hn
  subst hm
  cases hmu : (m.user_id == u) <;> cases hr : m.is_read <;> simp [hmu, hr]

/-- C9: `mark_all_notifications_as_read` is idempotent with respect to
the unread count: called twice in a row for the same user it succeeds
both times and `get_unread_count` for that user is 0 after each call. -/
theorem C9_mark_all_read_idempotent (notifs : Notifs) (u : Nat) :
    (mark_all_notifications_as_read notifs u).1.success = true ∧
    get_unread_count (mark_all_notifications_as_read notifs u).2 u = ⟨true, 0⟩ ∧
    (mark_all_notifications_as_read
        (mark_all_notifications_as_read notifs u).2 u).1.success = true ∧
    get_unread_count
        (mark_all_notifications_as_read
          (mark_all_notifications_as_read notifs u).2 u).2 u = ⟨true, 0⟩ :=
  ⟨rfl, unread_after_mark_all notifs u, rfl, unread_after_mark_all _ u⟩

end Portal.DbNotifications

namespace Portal

/-- C7: an existing unapproved project requested through the read
endpoint by an anonymous caller or by an authenticated caller who is
neither an owner of it nor an admin yields 404 "Project not found" — the
same response a nonexistent project yields, never a Forbidden response —
while a request by an owner or by an admin returns the project. -/
theorem C7_unapproved_read_not_found
    (users : List UserRow) (owners : OwnersDb) (projects : List ProjectRow)
    (project_id : Nat) (pr : ProjectRow)
    (hfound : DbProjects.get_project_by_id projects project_id = some pr)
    (hunapproved : pr.approved = false) :
    (∀ auth : Option Nat,
      (∀ u, auth = some u →
        DbUsers.is_admin users u = false ∧
        DbProjectOwners.is_project_owner owners project_id u = false) →
      ApiProjects.get_project users owners projects project_id auth
        = .failure 404 "Project not found") ∧
    (∀ q auth, DbProjects.get_project_by_id projects q = none →
      ApiProjects.get_project users owners projects q auth
        = .failure 404 "Project not found") ∧
    (∀ u, (DbProjectOwners.is_project_owner owners project_id u = true ∨
           DbUsers.is_admin users u = true) →
      ApiProjects.get_project users owners projects project_id (some u)
        = .success 200 pr) := by
  refine ⟨?_, ?_, ?_⟩
  · intro auth hnoperm
    simp only [ApiProjects.get_project, hfound]
    cases auth with
    | none => simp [hunapproved]
    | some u =>
      obtain ⟨ha, ho⟩ := hnoperm u rfl
      simp [hunapproved, ha, ho]
  · intro q auth hnone
    simp only [ApiProjects.get_project, hnone]
  · intro u hperm
    simp only [ApiProjects.get_project, hfound]
    rcases hperm with h | h <;> simp [h]

/-- Witness for C7 at a concrete state: project 1 is unapproved and owned
by user 10; an anonymous request and a request by the stranger 30 yield
404 "Project not found", identical to the response for the nonexistent
project 2, while owner 10 and admin 20 receive the project. -/
theorem C7_unapproved_read_not_found_witness :
    (ApiProjects.get_project [⟨20, "adm", true⟩, ⟨30, "str", false⟩] [⟨1, 10⟩]
        [⟨1, "P", "", "f.zip", 1, false, none, none, "t0"⟩] 1 none
      = .failure 404 "Project not found") ∧
    (ApiProjects.get_project [⟨20, "adm", true⟩, ⟨30, "str", false⟩] [⟨1, 10⟩]
        [⟨1, "P", "", "f.zip", 1, false, none, none, "t0"⟩] 1 (some 30)
      = .failure 404 "Project not found") ∧
    (ApiProjects.get_project [⟨20, "adm", true⟩, ⟨30, "str", false⟩] [⟨1, 10⟩]
        [⟨1, "P", "", "f.zip", 1, false, none, none, "t0"⟩] 2 none
      = .failure 404 "Project not found") ∧
    (ApiProjects.get_project [⟨20, "adm", true⟩, ⟨30, "str", false⟩] [⟨1, 10⟩]
        [⟨1, "P", "", "f.zip", 1, false, none, none, "t0"⟩] 1 (some 10)
      = .success 200 ⟨1, "P", "", "f.zip", 1, false, none, none, "t0"⟩) ∧
    (ApiProjects.get_project [⟨20, "adm", true⟩, ⟨30, "str", false⟩] [⟨1, 10⟩]
        [⟨1, "P", "", "f.zip", 1, false, none, none, "t0"⟩] 1 (some 20)
      = .success 200 ⟨1, "P", "", "f.zip", 1, false, none, none, "t0"⟩) := by
  have h := C7_unapproved_read_not_found
    [⟨20, "adm", true⟩, ⟨30, "str", false⟩] [⟨1, 10⟩]
    [⟨1, "P", "", "f.zip", 1, false, none, none, "t0"⟩] 1
    ⟨1, "P", "", "f.zip", 1, false, none, none, "t0"⟩ rfl rfl
  refine ⟨?_, ?_, ?_, ?_, ?_⟩
  · exact h.1 none (by intro u hu; cases hu)
  · exact h.1 (some 30) (by intro u hu; cases hu; exact ⟨rfl, rfl⟩)
  · exact h.2.1 2 none rfl
  · exact h.2.2 10 (Or.inl rfl)
  · exact h.2.2 20 (Or.inr rfl)

/-- C10: for an existing unapproved project the download endpoint
answers an unauthorized caller (neither owner nor admin, or anonymous)
with 403 "Project not available", while a nonexistent project yields 404
"Project not found"; the two responses differ, so — unlike the read
endpoint — the download endpoint reveals that the unapproved project
exists. -/
theorem C10_download_distinguishes_unapproved
    (users : List UserRow) (owners : OwnersDb) (projects : List ProjectRow)
    (fs : List String) (project_id : Nat) (pr : ProjectRow)
    (hfound : DbProjects.get_project_by_id projects project_id = some pr)
    (hunapproved : pr.approved = false)
    (auth : Option Nat)
    (hnoperm : ∀ u, auth = some u →
      DbUsers.is_admin users u = false ∧
      DbProjectOwners.is_project_owner owners project_id u = false) :
    ApiProjects.download_project users owners projects fs project_id auth
      = .failure 403 "Project not available" ∧
    (∀ q a, DbProjects.get_project_by_id projects q = none →
      ApiProjects.download_project users owners projects fs q a
        = .failure 404 "Project not found") ∧
    (ApiProjects.DownloadResult.failure 403 "Project not available"
      ≠ ApiProjects.DownloadResult.failure 404 "Project not found") := by
  refine ⟨?_, ?_, by decide⟩
  · simp only [ApiProjects.download_project, hfound]
    cases auth with
    | none => simp [hunapproved]
    | some u =>
      obtain ⟨ha, ho⟩ := hnoperm u rfl
      simp [hunapproved, ha, ho]
  · intro q a hnone
    simp only [ApiProjects.download_project, hnone]

/-- Witness for C10 at a concrete state: the anonymous download of the
existing unapproved project 1 is 403 "Project not available", the
download of the nonexistent project 2 is 404 "Project not found". -/
theorem C10_download_distinguishes_unapproved_witness :
    ApiProjects.download_project [] [⟨1, 10⟩]
        [⟨1, "P", "", "f.zip", 1, false, none, none, "t0"⟩] [] 1 none
      = .failure 403 "Project not available" ∧
    ApiProjects.download_project [] [⟨1, 10⟩]
        [⟨1, "P", "", "f.zip", 1, false, none, none, "t0"⟩] [] 2 none
      = .failure 404 "Project not found" := by
  have h := C10_download_distinguishes_unapproved [] [⟨1, 10⟩]
    [⟨1, "P", "", "f.zip", 1, false, none, none, "t0"⟩] [] 1
    ⟨1, "P", "", "f.zip", 1, false, none, none, "t0"⟩ rfl rfl none
    (by intro u hu; cases hu)
  exact ⟨h.1, h.2.1 2 none rfl⟩

end Portal

namespace Portal.DbReports

/-- C8: for an existing report, `update_report_status` with status
resolved or dismissed rewrites the matching row with the new status and
notes and stamps resolved_by with the acting admin and resolved_at with
the current time; `update_report_status` with status pending rewrites
only the status and notes of the matching row — its stored resolved_by /
resolved_at survive, and in the pending case no row's resolver stamps
change at all; rows with a different id are untouched in every case, and
the call reports success. -/
theorem C8_resolution_stamping
    (reports : Reports) (report_id admin_id : Nat)
    (admin_notes : Option String) (now : String) (r : ReportRow)
    (hr : r ∈ reports.rows) (hid : r.id = report_id) :
    (∀ status, (status = "resolved" ∨ status = "dismissed") →
      (update_report_status reports report_id status admin_id admin_notes now).1
          = ⟨true, "Report updated successfully"⟩ ∧
      { r with status := status, admin_notes := admin_notes,
               resolved_by := some admin_id, resolved_at := some now }
        ∈ (update_report_status reports report_id status admin_id admin_notes now).2.rows ∧
      (∀ r₂ ∈ reports.rows, r₂.id ≠ report_id →
        r₂ ∈ (update_report_status reports report_id status admin_id admin_notes now).2.rows)) ∧
    ((update_report_status reports report_id "pending" admin_id admin_notes now).1
        = ⟨true, "Report updated successfully"⟩ ∧
     { r with status := "pending", admin_notes := admin_notes }
        ∈ (update_report_status reports report_id "pending" admin_id admin_notes now).2.rows ∧
     (∀ r₂ ∈ reports.rows, r₂.id ≠ report_id →
        r₂ ∈ (update_report_status reports report_id "pending" admin_id admin_notes now).2.rows) ∧
     (∀ r₃ ∈ (update_report_status reports report_id "pending" admin_id admin_notes now).2.rows,
        ∃ r₀ ∈ reports.rows,
          r₃.resolved_by = r₀.resolved_by ∧ r₃.resolved_at = r₀.resolved_at)) := by
  have hany : reports.rows.any (fun x => x.id == report_id) = true :=
    List.any_eq_true.mpr ⟨r, hr, by simp [hid]⟩
  constructor
  · intro status hstatus
    have hs : (status == "resolved" || status == "dismissed") = true := by
      rcases hstatus with h | h <;> simp [h]
    refine ⟨by simp [update_report_status, hs, hany], ?_, ?_⟩
    · simp only [update_report_status, hs, if_true, hany]
      have hm := List.mem_map_of_mem (f := fun x =>
        if x.id == report_id then
          { x with status := status, admin_notes := admin_notes,
                   resolved_by := some admin_id, resolved_at := some now }
        else x) hr
      simpa [hid] using hm
    · intro r₂ h₂ hne
      simp only [update_report_status, hs, if_true, hany]
      have hm := List.mem_map_of_mem (f := fun x =>
        if x.id == report_id then
          { x with status := status, admin_notes := admin_notes,
                   resolved_by := some admin_id, resolved_at := some now }
        else x) h₂
      simpa [hne] using hm
  · have hs : (("pending" : String) == "resolved" || ("pending" : String) == "dismissed") = false := by
      decide
    refine ⟨by simp [update_report_status, hs, hany], ?_, ?_, ?_⟩
    · simp only [update_report_status, hs, Bool.false_eq_true, if_false, hany, if_true]
      have hm := List.mem_map_of_mem (f := fun x =>
        if x.id == report_id then
          { x with status := "pending", admin_notes := admin_notes }
        else x) hr
      simpa [hid] using hm
    · intro r₂ h₂ hne
      simp only [update_report_status, hs, Bool.false_eq_true, if_false, hany, if_true]
      have hm := List.mem_map_of_mem (f := fun x =>
        if x.id == report_id then
          { x with status := "pending", admin_notes := admin_notes }
        else x) h₂
      simpa [hne] using hm
    · intro r₃ h₃
      simp only [update_report_status, hs, Bool.false_eq_true, if_false, hany, if_true] at h₃
      rcases List.mem_map.mp h₃ with ⟨a, ha, rfl⟩
      refine ⟨a, ha, ?_⟩
      by_cases h : (a.id == report_id) = true <;> simp [h]

/-- Witness for C8 at a concrete state: report 5 (pending, already
carrying an old resolver stamp from admin 77) is resolved by admin 42,
stamping resolver and time; moving it back to pending keeps the old
stamp. -/
theorem C8_resolution_stamping_witness :
    (update_report_status ⟨6, [⟨5, 1, some 2, none, "spam", "pending",
        none, some 77, some "t0", "t"⟩]⟩ 5 "resolved" 42 (some "ok") "t9").1
      = ⟨true, "Report updated successfully"⟩ ∧
    (⟨5, 1, some 2, none, "spam", "resolved", some "ok", some 42, some "t9", "t"⟩ : ReportRow)
      ∈ (update_report_status ⟨6, [⟨5, 1, some 2, none, "spam", "pending",
        none, some 77, some "t0", "t"⟩]⟩ 5 "resolved" 42 (some "ok") "t9").2.rows ∧
    (⟨5, 1, some 2, none, "spam", "pending", some "n2", some 77, some "t0", "t"⟩ : ReportRow)
      ∈ (update_report_status ⟨6, [⟨5, 1, some 2, none, "spam", "pending",
        none, some 77, some "t0", "t"⟩]⟩ 5 "pending" 42 (some "n2") "t9").2.rows := by
  have h := C8_resolution_stamping
    ⟨6, [⟨5, 1, some 2, none, "spam", "pending", none, some 77, some "t0", "t"⟩]⟩
    5 42 (some "ok") "t9"
    ⟨5, 1, some 2, none, "spam", "pending", none, some 77, some "t0", "t"⟩
    (List.mem_singleton.mpr rfl) rfl
  have h2 := C8_resolution_stamping
    ⟨6, [⟨5, 1, some 2, none, "spam", "pending", none, some 77, some "t0", "t"⟩]⟩
    5 42 (some "n2") "t9"
    ⟨5, 1, some 2, none, "spam", "pending", none, some 77, some "t0", "t"⟩
    (List.mem_singleton.mpr rfl) rfl
  exact ⟨(h.1 "resolved" (Or.inl rfl)).1, (h.1 "resolved" (Or.inl rfl)).2.1, h2.2.2.1⟩

end Portal.DbReports

namespace Portal.DbRatings

lemma key_true_iff (r : RatingRow) (p u : Nat) :
    (r.project_id == p && r.user_id == u) = true ↔ r.project_id = p ∧ r.user_id = u := by
  simp

/-- Under the uniqueness constraint at most one row matches a key pair. -/
lemma filter_key_length_le_one (ratings : List RatingRow) (p u : Nat)
    (hwf : NodupKeys ratings) :
    (ratings.filter (fun r => r.project_id == p && r.user_id == u)).length ≤ 1 := by
  induction ratings with
  | nil => simp
  | cons a t ih =>
    have hhead := (List.pairwise_cons.mp hwf).1
    have htail := (List.pairwise_cons.mp hwf).2
    cases ka : (a.project_id == p && a.user_id == u) with
    | false =>
      rw [List.filter_cons_of_neg (by simp [ka])]
      exact ih htail
    | true =>
      rw [List.filter_cons_of_pos (by simp [ka])]
      have hnil : t.filter (fun r => r.project_id == p && r.user_id == u) = [] := by
        rw [List.filter_eq_nil_iff]
        intro b hb hkb
        have hak := (key_true_iff a p u).mp ka
        have hbk := (key_true_iff b p u).mp hkb
        exact hhead b hb ⟨hak.1.trans hbk.1.symm, hak.2.trans hbk.2.symm⟩
      simp [hnil]

/-- A key pair present in the table matches at least one row. -/
lemma filter_key_length_pos (ratings : List RatingRow) (p u : Nat)
    (hex : ratings.any (fun r => r.project_id == p && r.user_id == u) = true) :
    1 ≤ (ratings.filter (fun r => r.project_id == p && r.user_id == u)).length := by
  obtain ⟨r, hr, hkr⟩ := List.any_eq_true.mp hex
  have hmem : r ∈ ratings.filter (fun r => r.project_id == p && r.user_id == u) :=
    List.mem_filter.mpr ⟨hr, hkr⟩
  exact List.length_pos.mpr (List.ne_nil_of_mem hmem)

/-- The UPDATE branch of the upsert keeps the number of rows matching the
key pair. -/
lemma filter_key_update_length (ratings : List RatingRow) (p u : Nat) (v : Int)
    (now : String) :
    ((ratings.map (fun r =>
        if r.project_id == p && r.user_id == u then
          { r with rating := v, updated_at := now }
        else r)).filter (fun r => r.project_id == p && r.user_id == u)).length
      = (ratings.filter (fun r => r.project_id == p && r.user_id == u)).length := by
  rw [List.filter_map, List.length_map]
  congr 1
  apply List.filter_congr
  intro a _
  cases ka : (a.project_id == p && a.user_id == u) <;> simp [Function.comp, ka]

/-- After the UPDATE branch of the upsert the first row matching the key
pair carries the new value. -/
lemma find_key_update (ratings : List RatingRow) (p u : Nat) (v : Int) (now : String)
    (hex : ratings.any (fun r => r.project_id == p && r.user_id == u) = true) :
    ((ratings.map (fun r =>
        if r.project_id == p && r.user_id == u then
          { r with rating := v, updated_at := now }
        else r)).find? (fun r => r.project_id == p && r.user_id == u)).map
          (fun r => r.rating) = some v := by
  induction ratings with
  | nil => cases hex
  | cons a t ih =>
    cases ka : (a.project_id == p && a.user_id == u) with
    | false =>
      have hext : t.any (fun r => r.project_id == p && r.user_id == u) = true := by
        rw [List.any_cons, ka, Bool.false_or] at hex
        exact hex
      simp only [List.map_cons]
      rw [List.find?_cons_of_neg _ (by simp [ka])]
      exact ih hext
    | true =>
      simp only [List.map_cons]
      rw [List.find?_cons_of_pos _ (by simp [ka])]
      simp [ka]

/-- The UPDATE branch of the upsert preserves the uniqueness
constraint. -/
lemma nodup_keys_update (ratings : List RatingRow) (p u : Nat) (v : Int)
    (now : String) (hwf : NodupKeys ratings) :
    NodupKeys (ratings.map (fun r =>
      if r.project_id == p && r.user_id == u then
        { r with rating := v, updated_at := now }
      else r)) := by
  rw [NodupKeys, List.pairwise_map]
  refine hwf.imp ?_
  intro a b hab
  cases ha : (a.project_id == p && a.user_id == u) <;>
    cases hb : (b.project_id == p && b.user_id == u) <;>
      simpa [ha, hb] using hab

/-- Core behavior of the `rate_project` upsert on a constraint-satisfying
table: it succeeds, leaves exactly one row for the key pair, that row
carries the new value, and the constraint is preserved. -/
lemma rate_project_core (ratings : List RatingRow) (p u : Nat) (v : Int)
    (now : String) (hwf : NodupKeys ratings) (h1 : 1 ≤ v) (h5 : v ≤ 5) :
    (rate_project ratings p u v now).1.success = true ∧
    ((rate_project ratings p u v now).2.filter
        (fun r => r.project_id == p && r.user_id == u)).length = 1 ∧
    get_user_rating (rate_project ratings p u v now).2 p u = some v ∧
    NodupKeys (rate_project ratings p u v now).2 := by
  have hrange : (decide (v < 1) || decide (v > 5)) = false := by
    simp only [Bool.or_eq_false_iff, decide_eq_false_iff_not]
    omega
  cases hex : ratings.any (fun r => r.project_id == p && r.user_id == u) with
  | true =>
    have h2 : rate_project ratings p u v now =
        (⟨true, "Rating updated successfully"⟩,
         ratings.map (fun r =>
           if r.project_id == p && r.user_id == u then
             { r with rating := v, updated_at := now }
           else r)) := by
      simp [rate_project, hrange, hex]
    rw [h2]
    refine ⟨rfl, ?_, ?_, nodup_keys_update ratings p u v now hwf⟩
    · rw [filter_key_update_length]
      exact le_antisymm (filter_key_length_le_one ratings p u hwf)
        (filter_key_length_pos ratings p u hex)
    · exact find_key_update ratings p u v now hex
  | false =>
    have hnotmem : ∀ r ∈ ratings, ¬((r.project_id == p && r.user_id == u) = true) := by
      intro r hr hk
      have hcontra : ratings.any (fun r => r.project_id == p && r.user_id == u) = true :=
        List.any_eq_true.mpr ⟨r, hr, hk⟩
      rw [hex] at hcontra
      exact Bool.false_ne_true hcontra
    have h2 : rate_project ratings p u v now =
        (⟨true, "Rating added successfully"⟩,
         ratings ++ [⟨p, u, v, now, now⟩]) := by
      simp [rate_project, hrange, hex]
    rw [h2]
    have hfilnil : ratings.filter (fun r => r.project_id == p && r.user_id == u) = [] :=
      List.filter_eq_nil_iff.mpr hnotmem
    refine ⟨rfl, ?_, ?_, ?_⟩
    · rw [List.filter_append, hfilnil]
      simp
    · rw [get_user_rating, List.find?_append]
      have : ratings.find? (fun r => r.project_id == p && r.user_id == u) = none :=
        List.find?_eq_none.mpr hnotmem
      rw [this]
      simp
    · rw [NodupKeys, List.pairwise_append]
      refine ⟨hwf, List.pairwise_singleton _ _, ?_⟩
      intro a ha b hb
      have hb' : b = (⟨p, u, v, now, now⟩ : RatingRow) := by simpa using hb
      subst hb'
      intro hk
      exact hnotmem a ha (by simp [hk.1, hk.2])

/-- C4: on a table satisfying the UNIQUE(project_id, user_id)
constraint, `rate_project` with a value in 1..5 succeeds, leaves exactly
one rating row for the (project, user) pair, and `get_user_rating`
returns the written value; rating again with another in-range value still
leaves exactly one row, now holding the later value. -/
theorem C4_rating_upsert_round_trip (ratings : List RatingRow) (p u : Nat)
    (v : Int) (now : String) (hwf : NodupKeys ratings) (h1 : 1 ≤ v) (h5 : v ≤ 5) :
    (rate_project ratings p u v now).1.success = true ∧
    ((rate_project ratings p u v now).2.filter
        (fun r => r.project_id == p && r.user_id == u)).length = 1 ∧
    get_user_rating (rate_project ratings p u v now).2 p u = some v ∧
    (∀ w now₂, 1 ≤ w → w ≤ 5 →
      ((rate_project (rate_project ratings p u v now).2 p u w now₂).2.filter
          (fun r => r.project_id == p && r.user_id == u)).length = 1 ∧
      get_user_rating (rate_project (rate_project ratings p u v now).2 p u w now₂).2 p u
        = some w) := by
  obtain ⟨hs, hlen, hget, hwf2⟩ := rate_project_core ratings p u v now hwf h1 h5
  refine ⟨hs, hlen, hget, ?_⟩
  intro w now₂ hw1 hw5
  obtain ⟨_, hlen2, hget2, _⟩ :=
    rate_project_core (rate_project ratings p u v now).2 p u w now₂ hwf2 hw1 hw5
  exact ⟨hlen2, hget2⟩

/-- Witness for C4 at a concrete state: starting from an empty table,
user 2 rates project 1 with 5 and then re-rates with 3; after each call
exactly one row exists for the pair and it holds the latest value. -/
theorem C4_rating_upsert_round_trip_witness :
    (rate_project [] 1 2 5 "t1").1.success = true ∧
    ((rate_project [] 1 2 5 "t1").2.filter
        (fun r => r.project_id == 1 && r.user_id == 2)).length = 1 ∧
    get_user_rating (rate_project [] 1 2 5 "t1").2 1 2 = some 5 ∧
    ((rate_project (rate_project [] 1 2 5 "t1").2 1 2 3 "t2").2.filter
        (fun r => r.project_id == 1 && r.user_id == 2)).length = 1 ∧
    get_user_rating (rate_project (rate_project [] 1 2 5 "t1").2 1 2 3 "t2").2 1 2
      = some 3 := by
  have h := C4_rating_upsert_round_trip [] 1 2 5 "t1" List.Pairwise.nil
    (by decide) (by decide)
  exact ⟨h.1, h.2.1, h.2.2.1, (h.2.2.2 3 "t2" (by decide) (by decide)).1,
    (h.2.2.2 3 "t2" (by decide) (by decide)).2⟩

end Portal.DbRatings

namespace Portal.DbRatings

lemma length_le_sum_of_one_le (l : List ℚ) (h : ∀ x ∈ l, 1 ≤ x) :
    (l.length : ℚ) ≤ l.sum := by
  induction l with
  | nil => simp
  | cons a t ih =>
    have ha := h a (List.mem_cons_self a t)
    have ht := ih (fun x hx => h x (List.mem_cons_of_mem a hx))
    simp only [List.length_cons, List.sum_cons]
    push_cast
    linarith

/-- C6: `get_project_rating` reports the row count of the project
together with the arithmetic mean of its rating rows rounded to one
decimal place (Python's `round(x, 1)`), and reports average 0 with count
0 when the project has no rating row; concretely, ratings 5 and 3 yield
average 4 with count 2, and updating the 5 to 1 through the
`rate_project` upsert yields average 2 with count 2. -/
theorem C6_aggregate_mean (ratings : List RatingRow) (p : Nat) :
    ((ratings.filter (fun r => r.project_id == p)).length = 0 →
      get_project_rating ratings p = ⟨true, 0, 0⟩) ∧
    (0 < (ratings.filter (fun r => r.project_id == p)).length →
      (∀ r ∈ ratings, r.project_id = p → 1 ≤ r.rating) →
      get_project_rating ratings p =
        ⟨true,
         pythonRound1 (((ratings.filter (fun r => r.project_id == p)).map
             (fun r => (r.rating : ℚ))).sum /
           (((ratings.filter (fun r => r.project_id == p)).length : ℚ))),
         (ratings.filter (fun r => r.project_id == p)).length⟩) ∧
    (get_project_rating (rate_project (rate_project [] 7 100 5 "t1").2 7 200 3 "t2").2 7
        = ⟨true, 4, 2⟩) ∧
    (get_project_rating (rate_project (rate_project (rate_project [] 7 100 5 "t1").2
          7 200 3 "t2").2 7 100 1 "t3").2 7
        = ⟨true, 2, 2⟩) := by
  have hs2 : (rate_project (rate_project [] 7 100 5 "t1").2 7 200 3 "t2").2
      = [⟨7, 100, 5, "t1", "t1"⟩, ⟨7, 200, 3, "t2", "t2"⟩] := rfl
  have hs3 : (rate_project (rate_project (rate_project [] 7 100 5 "t1").2
        7 200 3 "t2").2 7 100 1 "t3").2
      = [⟨7, 100, 1, "t1", "t3"⟩, ⟨7, 200, 3, "t2", "t2"⟩] := rfl
  refine ⟨?_, ?_,
    by rw [hs2]; norm_num [get_project_rating, pythonRound1, roundHalfEven],
    by rw [hs3]; norm_num [get_project_rating, pythonRound1, roundHalfEven]⟩
  · intro h0
    simp [get_project_rating, h0]
  · intro hpos hrange
    have hc : ((ratings.filter (fun r => r.project_id == p)).length == 0) = false := by
      simp only [beq_eq_false_iff_ne, ne_eq]
      omega
    have h1le : ∀ x ∈ (ratings.filter (fun r => r.project_id == p)).map
        (fun r => (r.rating : ℚ)), (1 : ℚ) ≤ x := by
      intro x hx
      rcases List.mem_map.mp hx with ⟨r, hrmem, rfl⟩
      have hr2 := List.mem_filter.mp hrmem
      have hpid : r.project_id = p := by simpa using hr2.2
      exact_mod_cast hrange r hr2.1 hpid
    have hsum := length_le_sum_of_one_le _ h1le
    rw [List.length_map] at hsum
    have hcpos : (0 : ℚ) < ((ratings.filter (fun r => r.project_id == p)).length : ℚ) := by
      exact_mod_cast hpos
    have havgpos : 0 < ((ratings.filter (fun r => r.project_id == p)).map
          (fun r => (r.rating : ℚ))).sum /
        (((ratings.filter (fun r => r.project_id == p)).length : ℚ)) :=
      div_pos (lt_of_lt_of_le hcpos hsum) hcpos
    have hne : (((ratings.filter (fun r => r.project_id == p)).map
          (fun r => (r.rating : ℚ))).sum /
        (((ratings.filter (fun r => r.project_id == p)).length : ℚ)) == 0) = false := by
      simp only [beq_eq_false_iff_ne, ne_eq]
      exact ne_of_gt havgpos
    simp only [get_project_rating, hc, Bool.false_eq_true, if_false, hne]

/-- Witness for C6 at concrete states: the aggregate of a project with no
ratings is (0, 0), and with the two rating rows 5 and 3 the aggregate is
(4, 2). -/
theorem C6_aggregate_mean_witness :
    get_project_rating [] 9 = ⟨true, 0, 0⟩ ∧
    get_project_rating [⟨7, 100, 5, "t", "t"⟩, ⟨7, 200, 3, "t", "t"⟩] 7
      = ⟨true, 4, 2⟩ := by
  constructor
  · exact (C6_aggregate_mean [] 9).1 rfl
  · have h := (C6_aggregate_mean [⟨7, 100, 5, "t", "t"⟩, ⟨7, 200, 3, "t", "t"⟩] 7).2.1
      (by decide) (by decide)
    rw [h]
    norm_num [pythonRound1, roundHalfEven]

end Portal.DbRatings

namespace Portal.DbProjects

lemma find?_map_of_id_preserved (projects : List ProjectRow) (q : Nat)
    (f : ProjectRow → ProjectRow) (hid : ∀ pr, (f pr).id = pr.id) :
    (projects.map f).find? (fun pr => pr.id == q)
      = (projects.find? (fun pr => pr.id == q)).map f := by
  induction projects with
  | nil => rfl
  | cons a t ih =>
    simp only [List.map_cons, List.find?, hid a]
    cases ka : (a.id == q) with
    | true => simp [ka]
    | false => simp [ka, ih]

lemma updateRow_id (project_id : Nat) (name description file_path : Option String)
    (file_size : Option Nat) (project_link : Option String)
    (last_edited_by_id : Option Nat) (now : String) (pr : ProjectRow) :
    (updateRow project_id name description file_path file_size project_link
      last_edited_by_id now pr).id = pr.id := by
  unfold updateRow
  split <;> rfl

lemma updateRow_approved (project_id : Nat) (name description file_path : Option String)
    (file_size : Option Nat) (project_link : Option String)
    (last_edited_by_id : Option Nat) (now : String) (pr : ProjectRow) :
    (updateRow project_id name description file_path file_size project_link
      last_edited_by_id now pr).approved = pr.approved := by
  unfold updateRow
  split <;> rfl

/-- `update_project` never changes the approved flag of any project, as
seen through `get_project_by_id`. -/
lemma lookup_approved_update (projects : List ProjectRow) (project_id : Nat)
    (name description file_path : Option String) (file_size : Option Nat)
    (project_link : Option String) (last_edited_by_id : Option Nat)
    (now : String) (q : Nat) :
    (get_project_by_id (update_project projects project_id name description
        file_path file_size project_link last_edited_by_id now).2 q).map
      (fun pr => pr.approved)
      = (get_project_by_id projects q).map (fun pr => pr.approved) := by
  simp only [update_project, get_project_by_id]
  split
  · rfl
  · have hstep : ∀ (b : DbResult),
        (((b, projects.map (updateRow project_id name description file_path
            file_size project_link last_edited_by_id now)) :
          DbResult × List ProjectRow).2.find? (fun pr => pr.id == q)).map
            (fun pr => pr.approved)
          = (projects.find? (fun pr => pr.id == q)).map (fun pr => pr.approved) := by
      intro b
      rw [find?_map_of_id_preserved _ _ _
        (updateRow_id project_id name description file_path file_size project_link
          last_edited_by_id now), Option.map_map]
      cases projects.find? (fun pr => pr.id == q) with
      | none => rfl
      | some a => simp [Function.comp, updateRow_approved]
    split
    · exact hstep _
    · exact hstep _

end Portal.DbProjects

namespace Portal.DbProjects

lemma exists_lookup_approved (l : List ProjectRow) (q : Nat) (b : Bool)
    (h : (get_project_by_id l q).map (fun pr => pr.approved) = some b) :
    ∃ x, get_project_by_id l q = some x ∧ x.approved = b := by
  cases hf : get_project_by_id l q with
  | none => rw [hf] at h; cases h
  | some a =>
    rw [hf] at h
    exact ⟨a, rfl, by simpa using h⟩

/-- `update_project` keeps the updated project present and keeps its
approved flag. -/
lemma lookup_update_found (projects : List ProjectRow) (project_id : Nat)
    (name description file_path : Option String) (file_size : Option Nat)
    (project_link : Option String) (last_edited_by_id : Option Nat)
    (now : String) (q : Nat) (pr : ProjectRow)
    (h : get_project_by_id projects q = some pr) :
    ∃ x, get_project_by_id (update_project projects project_id name description
        file_path file_size project_link last_edited_by_id now).2 q = some x ∧
      x.approved = pr.approved := by
  apply exists_lookup_approved
  rw [lookup_approved_update, h]
  rfl

/-- `unapprove_project` rewrites the looked-up project with a cleared
approved flag. -/
lemma lookup_unapprove_of_found (projects : List ProjectRow) (p : Nat)
    (pr : ProjectRow) (h : get_project_by_id projects p = some pr) :
    get_project_by_id (unapprove_project projects p).2 p
      = some { pr with approved := false } := by
  have hid : ∀ x : ProjectRow,
      ((fun x => if x.id == p then { x with approved := false } else x) x).id = x.id := by
    intro x
    by_cases hx : (x.id == p) = true <;> simp [hx]
  simp only [get_project_by_id] at h
  have hkey : (pr.id == p) = true := List.find?_some (p := fun x : ProjectRow => x.id == p) h
  simp only [unapprove_project, get_project_by_id]
  have hkeyEq : pr.id = p := by simpa using hkey
  split <;>
  · dsimp only
    rw [find?_map_of_id_preserved _ _ _ hid, h]
    simp [hkeyEq]

end Portal.DbProjects

namespace Portal

/-- C3: for an existing project and an acting user who is an owner or an
admin, the update endpoint resets the approved flag to false exactly when
the request replaces the file (a present file part with a nonempty,
allowed filename) — regardless of which of the two roles the actor holds —
and leaves the approved flag unchanged when the request does not replace
the file. -/
theorem C3_file_replacement_resets_approval
    (users : List UserRow) (owners : OwnersDb) (projects : List ProjectRow)
    (notifs : Notifs) (project_id current_user_id : Nat)
    (current_username : String) (req : ApiProjects.UpdateRequest)
    (new_file_path : String) (new_file_size : Nat) (now : String) (pr : ProjectRow)
    (hfound : DbProjects.get_project_by_id projects project_id = some pr)
    (hauth : DbProjectOwners.is_project_owner owners project_id current_user_id = true ∨
             DbUsers.is_admin users current_user_id = true) :
    (ApiProjects.fileReplaced req = true →
      ∃ x, DbProjects.get_project_by_id
          (ApiProjects.update_project users owners projects notifs project_id
            current_user_id current_username req new_file_path new_file_size now).2.1
          project_id = some x ∧ x.approved = false) ∧
    (ApiProjects.fileReplaced req = false →
      ∃ x, DbProjects.get_project_by_id
          (ApiProjects.update_project users owners projects notifs project_id
            current_user_id current_username req new_file_path new_file_size now).2.1
          project_id = some x ∧ x.approved = pr.approved) := by
  have hgate : (!(DbProjectOwners.is_project_owner owners project_id current_user_id) &&
      !(DbUsers.is_admin users current_user_id)) = false := by
    rcases hauth with h | h <;> simp [h]
  obtain ⟨pr₁, hpr₁, happ₁⟩ :
      ∃ x, DbProjects.get_project_by_id
        (if truthyStr req.name || truthyStr req.description || req.project_link.isSome then
          (DbProjects.update_project projects project_id
            (if truthyStr req.name then req.name else none)
            req.description none none req.project_link (some current_user_id) now).2
        else projects) project_id = some x ∧ x.approved = pr.approved := by
    by_cases hc1 : (truthyStr req.name || truthyStr req.description ||
        req.project_link.isSome) = true
    · rw [if_pos hc1]
      exact DbProjects.lookup_update_found projects project_id
        (if truthyStr req.name then req.name else none) req.description none none
        req.project_link (some current_user_id) now project_id pr hfound
    · rw [if_neg hc1]
      exact ⟨pr, hfound, rfl⟩
  obtain ⟨pr₂, hpr₂, happ₂⟩ :
      ∃ x, DbProjects.get_project_by_id
        (if req.tags.isSome then
          (DbProjects.update_project
            (if truthyStr req.name || truthyStr req.description || req.project_link.isSome then
              (DbProjects.update_project projects project_id
                (if truthyStr req.name then req.name else none)
                req.description none none req.project_link (some current_user_id) now).2
            else projects) project_id
            none none none none none (some current_user_id) now).2
        else
          (if truthyStr req.name || truthyStr req.description || req.project_link.isSome then
            (DbProjects.update_project projects project_id
              (if truthyStr req.name then req.name else none)
              req.description none none req.project_link (some current_user_id) now).2
          else projects)) project_id = some x ∧ x.approved = pr.approved := by
    by_cases hc2 : req.tags.isSome = true
    · rw [if_pos hc2]
      obtain ⟨x, hx, hax⟩ := DbProjects.lookup_update_found _ project_id
        none none none none none (some current_user_id) now project_id pr₁ hpr₁
      exact ⟨x, hx, hax.trans happ₁⟩
    · rw [if_neg hc2]
      exact ⟨pr₁, hpr₁, happ₁⟩
  constructor
  · intro hrep
    simp only [ApiProjects.update_project, hfound, hgate, Bool.false_eq_true, if_false]
    cases hfile : req.file with
    | none =>
      simp only [ApiProjects.fileReplaced, hfile] at hrep
      exact absurd hrep Bool.false_ne_true
    | some f =>
      simp only [ApiProjects.fileReplaced, hfile] at hrep
      simp only [hfile]
      rw [if_pos hrep]
      obtain ⟨x, hx, hax⟩ := DbProjects.lookup_update_found _ project_id
        none none (some new_file_path) (some new_file_size) none
        (some current_user_id) now project_id pr₂ hpr₂
      rw [DbProjects.lookup_unapprove_of_found _ project_id x hx]
      exact ⟨{ x with approved := false }, rfl, rfl⟩
  · intro hrep
    simp only [ApiProjects.update_project, hfound, hgate, Bool.false_eq_true, if_false]
    cases hfile : req.file with
    | none =>
      simp only [hfile]
      exact ⟨pr₂, hpr₂, happ₂⟩
    | some f =>
      simp only [ApiProjects.fileReplaced, hfile] at hrep
      simp only [hfile]
      rw [if_neg (by rw [hrep]; exact Bool.false_ne_true)]
      exact ⟨pr₂, hpr₂, happ₂⟩

end Portal

namespace Portal

/-- Witness for C3 at a concrete state: owner 10 of the approved project
1 uploads a replacement archive, after which the project is unapproved;
the same owner renaming the project without a file keeps it approved. -/
theorem C3_file_replacement_resets_approval_witness :
    (∃ x, DbProjects.get_project_by_id
        (ApiProjects.update_project [] [⟨1, 10⟩]
          [⟨1, "P", "", "old.zip", 3, true, none, none, "t0"⟩] ⟨1, []⟩ 1 10 "alice"
          ⟨none, none, none, none, some ⟨"new.zip"⟩⟩ "uploads/1_new.zip" 7 "t1").2.1 1
        = some x ∧ x.approved = false) ∧
    (∃ x, DbProjects.get_project_by_id
        (ApiProjects.update_project [] [⟨1, 10⟩]
          [⟨1, "P", "", "old.zip", 3, true, none, none, "t0"⟩] ⟨1, []⟩ 1 10 "alice"
          ⟨some "N", none, none, none, none⟩ "uploads/1_new.zip" 7 "t1").2.1 1
        = some x ∧ x.approved = true) := by
  constructor
  · exact (C3_file_replacement_resets_approval [] [⟨1, 10⟩]
      [⟨1, "P", "", "old.zip", 3, true, none, none, "t0"⟩] ⟨1, []⟩ 1 10 "alice"
      ⟨none, none, none, none, some ⟨"new.zip"⟩⟩ "uploads/1_new.zip" 7 "t1"
      ⟨1, "P", "", "old.zip", 3, true, none, none, "t0"⟩ rfl (Or.inl rfl)).1 (by decide)
  · exact (C3_file_replacement_resets_approval [] [⟨1, 10⟩]
      [⟨1, "P", "", "old.zip", 3, true, none, none, "t0"⟩] ⟨1, []⟩ 1 10 "alice"
      ⟨some "N", none, none, none, none⟩ "uploads/1_new.zip" 7 "t1"
      ⟨1, "P", "", "old.zip", 3, true, none, none, "t0"⟩ rfl (Or.inl rfl)).2 rfl

end Portal

namespace Portal

/-- C5: a submission whose reported user id equals the reporter's own id
(with a well-formed, nonempty reason — the Report data model requires a
reason) is rejected with 400 "You cannot report yourself" and leaves both
the reports table and the notifications table untouched; moreover, for
every submission whatsoever, the admin notifications change only when a
report row was actually inserted. -/
theorem C5_self_report_rejected
    (users : List UserRow) (projects : List ProjectRow)
    (reports : DbReports.Reports) (notifs : Notifs)
    (current_user_id : Nat) (current_username : String)
    (reason_raw : String) (reported_project_id : Option Nat) (now : String)
    (hid : 0 < current_user_id) (hreason : pyStrip reason_raw ≠ "") :
    ApiReports.submit_report users projects reports notifs current_user_id
        current_username (some reason_raw) (some current_user_id)
        reported_project_id now
      = ((400, "You cannot report yourself"), reports, notifs) ∧
    (∀ (reason : Option String) (ru rp : Option Nat),
      (ApiReports.submit_report users projects reports notifs current_user_id
          current_username reason ru rp now).2.2 ≠ notifs →
      (ApiReports.submit_report users projects reports notifs current_user_id
          current_username reason ru rp now).2.1.rows.length
        = reports.rows.length + 1) := by
  have htr : truthyNat (some current_user_id) = true := by
    simp only [truthyNat, bne_iff_ne, ne_eq]
    omega
  constructor
  · have h1 : (pyStrip reason_raw == "") = false := beq_eq_false_iff_ne.mpr hreason
    simp [ApiReports.submit_report, h1, htr]
  · intro reason ru rp hne
    cases reason with
    | none => exact absurd rfl hne
    | some r =>
      simp only [ApiReports.submit_report, DbReports.create_report] at hne ⊢
      rcases Bool.eq_false_or_eq_true (pyStrip r == "") with hR | hR
      · simp [hR] at hne
      · rcases Bool.eq_false_or_eq_true (!truthyNat ru && !truthyNat rp) with hA | hA
        · simp [hR, hA] at hne
        · rcases Bool.eq_false_or_eq_true
            (truthyNat ru && ru == some current_user_id) with hC | hC
          · simp [hR, hA, hC] at hne
          · rcases Bool.eq_false_or_eq_true (truthyNat ru && truthyNat rp) with hB | hB
            · simp [hR, hA, hC, hB] at hne
            · simp only [hR, hA, hC, hB, Bool.false_eq_true, if_false] at hne ⊢
              simp [List.length_append]

/-- Witness for C5 at a concrete state: user 3 reporting user 3 with
reason "spam" is rejected with "You cannot report yourself" and changes
nothing. -/
theorem C5_self_report_rejected_witness :
    ApiReports.submit_report [] [] ⟨1, []⟩ ⟨1, []⟩ 3 "mallory"
        (some "spam") (some 3) none "t0"
      = ((400, "You cannot report yourself"), ⟨1, []⟩, ⟨1, []⟩) :=
  (C5_self_report_rejected [] [] ⟨1, []⟩ ⟨1, []⟩ 3 "mallory" "spam" none "t0"
    (by decide) (by decide)).1

end Portal

namespace Portal

/-- Counterexample to C2 as stated: in a project owned by users 10
(creator) and 20, with no admins, the non-owner user 30 — who is neither
the creator nor an admin — invokes remove-co-owner against the creator
and is rejected by the authorization gate with
"You do not have permission to remove owners" (HTTP 403), not with the
creator-protection error "Cannot remove the project creator" that the
claim predicts for every such acting user. -/
theorem C2_creator_protection_counterexample :
    ApiProjects.remove_project_owner [] [⟨1, 10⟩, ⟨1, 20⟩] 1 10 30
      = ((403, "You do not have permission to remove owners"), [⟨1, 10⟩, ⟨1, 20⟩]) ∧
    DbProjectOwners.get_project_creator [⟨1, 10⟩, ⟨1, 20⟩] 1 = some 10 ∧
    (30 : Nat) ≠ 10 ∧
    DbUsers.is_admin [] 30 = false ∧
    ("You do not have permission to remove owners" : String)
      ≠ "Cannot remove the project creator" := by
  refine ⟨rfl, rfl, by decide, rfl, by decide⟩

/-- C2 (amended): for an acting user who passes the endpoint's
owner-or-admin authorization, remove-co-owner against the project's
creator is rejected with "Cannot remove the project creator" and no
ownership row is deleted whenever the actor is neither the creator nor an
admin; and when the actor is the creator themselves or an admin the call
is delegated to the ownership registry's `remove_owner_from_project`. -/
theorem C2_creator_protection_amended
    (users : List UserRow) (owners : OwnersDb) (project_id target actor c : Nat)
    (hcreator : DbProjectOwners.get_project_creator owners project_id = some c)
    (htarget : target = c)
    (hgate : DbProjectOwners.is_project_owner owners project_id actor = true ∨
             DbUsers.is_admin users actor = true) :
    (actor ≠ c → DbUsers.is_admin users actor = false →
      ApiProjects.remove_project_owner users owners project_id target actor
        = ((403, "Cannot remove the project creator"), owners)) ∧
    ((actor = c ∨ DbUsers.is_admin users actor = true) →
      ApiProjects.remove_project_owner users owners project_id target actor
        = ((if (DbProjectOwners.remove_owner_from_project owners project_id target).1.success
              then 200 else 400,
            (DbProjectOwners.remove_owner_from_project owners project_id target).1.message),
           (DbProjectOwners.remove_owner_from_project owners project_id target).2)) := by
  subst htarget
  have hgateF : (!(DbProjectOwners.is_project_owner owners project_id actor) &&
      !(DbUsers.is_admin users actor)) = false := by
    rcases hgate with h | h <;> simp [h]
  constructor
  · intro hne hadm
    have hblock : (target == target && (actor != target) &&
        !(DbUsers.is_admin users actor)) = true := by
      simp [hadm, bne_iff_ne, hne]
    simp only [ApiProjects.remove_project_owner, hgateF, Bool.false_eq_true, if_false,
      hcreator, hblock, if_true]
  · intro hor
    have hblock : (target == target && (actor != target) &&
        !(DbUsers.is_admin users actor)) = false := by
      rcases hor with h | h <;> simp [h]
    simp only [ApiProjects.remove_project_owner, hgateF, Bool.false_eq_true, if_false,
      hcreator, hblock]

/-- Witness for the amended C2 at a concrete state: in a project owned by
creator 10 and co-owner 20 (admin: 99), the non-admin co-owner 20 cannot
remove the creator, while the creator removing themselves is delegated to
the registry and succeeds, leaving owner 20. -/
theorem C2_creator_protection_amended_witness :
    ApiProjects.remove_project_owner [⟨99, "root", true⟩] [⟨1, 10⟩, ⟨1, 20⟩] 1 10 20
      = ((403, "Cannot remove the project creator"), [⟨1, 10⟩, ⟨1, 20⟩]) ∧
    ApiProjects.remove_project_owner [⟨99, "root", true⟩] [⟨1, 10⟩, ⟨1, 20⟩] 1 10 10
      = ((200, "Owner removed successfully"), [⟨1, 20⟩]) := by
  constructor
  · exact (C2_creator_protection_amended [⟨99, "root", true⟩] [⟨1, 10⟩, ⟨1, 20⟩]
      1 10 20 10 rfl rfl (Or.inl rfl)).1 (by decide) rfl
  · have h := (C2_creator_protection_amended [⟨99, "root", true⟩] [⟨1, 10⟩, ⟨1, 20⟩]
      1 10 10 10 rfl rfl (Or.inl rfl)).2 (Or.inl rfl)
    rw [h]
    rfl

end Portal
